import Mathlib

/-!
Verification of the spaced-repetition scheduling engine of a Telegram
reminder bot (source: main.py).  The engine parts embedded here are:

* the FSRS-style memory update and interval projection
  (main.py, fsrs_update_and_next, lines 65-78);
* the due-set selector, an embedding of the SQL query used by cmd_today
  (lines 226-234) and send_daily_for_all (lines 346-354);
* the exact-minute dispatch match (lines 339-344) together with the
  time-string helpers parse_hhmm (lines 40-42) and the zero-padded
  rendering produced by strftime;
* the per-learner error isolation of the dispatch pass (lines 337-363)
  and the recurring scheduler loop (lines 366-372).

Python float arithmetic is modelled as exact arithmetic: the branch
updates over the rationals and the interval projection over the reals
(math.log and math.ceil become Real.log and Int.ceil).
-/

/-- The branch part of fsrs_update_and_next (main.py lines 66-74).
The action strings are the callback labels from feedback_kb: "worked",
"abit" (the Partial outcome) and "didnt" (the Missed outcome); any other
string falls into the final else branch, exactly as in the source.
Returns the pair (new difficulty, new stability). -/
def fsrs_branch (D S : ℚ) (action : String) : ℚ × ℚ :=
  if action = "worked" then (max 0.05 (D - 0.05), S * (1 + 0.7 * (1 - D)))
  else if action = "abit" then (min 0.95 (D + 0.02), S * 1.05)
  else (min 0.98 (D + 0.05), S * 0.75)

/-- fsrs_update_and_next (main.py lines 65-78): after the branch update,
S_eff = S * (1 + 0.6*(1 - D)) with the updated values, and
interval = max(1, ceil(-S_eff * log target)).  Returns (D, S, interval)
in the source's order. -/
noncomputable def fsrs_update_and_next (D S : ℚ) (action : String) (target : ℝ) :
    ℚ × ℚ × ℤ :=
  let p := fsrs_branch D S action
  let S_eff : ℝ := (p.2 : ℝ) * (1 + 0.6 * (1 - (p.1 : ℝ)))
  (p.1, p.2, max 1 ⌈-S_eff * Real.log target⌉)

/-- C1: for every difficulty in [0.05, 0.98] and stability > 0, the feedback
update applies exactly the branch keyed by the outcome: Worked ("worked")
gives stability * (1 + 0.7*(1 - difficulty)) and max(0.05, difficulty - 0.05);
Partial ("abit") gives stability * 1.05 and min(0.95, difficulty + 0.02);
Missed ("didnt") gives stability * 0.75 and min(0.98, difficulty + 0.05). -/
theorem fsrs_update_branch_eq (D S : ℚ) (target : ℝ)
    (hD1 : 0.05 ≤ D) (hD2 : D ≤ 0.98) (hS : 0 < S) :
    ((fsrs_update_and_next D S "worked" target).1 = max 0.05 (D - 0.05) ∧
     (fsrs_update_and_next D S "worked" target).2.1 = S * (1 + 0.7 * (1 - D))) ∧
    ((fsrs_update_and_next D S "abit" target).1 = min 0.95 (D + 0.02) ∧
     (fsrs_update_and_next D S "abit" target).2.1 = S * 1.05) ∧
    ((fsrs_update_and_next D S "didnt" target).1 = min 0.98 (D + 0.05) ∧
     (fsrs_update_and_next D S "didnt" target).2.1 = S * 0.75) := by
  refine ⟨⟨?_, ?_⟩, ⟨?_, ?_⟩, ⟨?_, ?_⟩⟩ <;>
    simp [fsrs_update_and_next, fsrs_branch]

/-- Witness for C1 at difficulty 1/2, stability 10, target 9/10. -/
theorem fsrs_update_branch_eq_witness :
    ((0.05 : ℚ) ≤ 1/2 ∧ (1/2 : ℚ) ≤ 0.98 ∧ (0 : ℚ) < 10) ∧
    (((fsrs_update_and_next (1/2) 10 "worked" (9/10)).1 = max 0.05 (1/2 - 0.05) ∧
      (fsrs_update_and_next (1/2) 10 "worked" (9/10)).2.1 = 10 * (1 + 0.7 * (1 - 1/2))) ∧
     ((fsrs_update_and_next (1/2) 10 "abit" (9/10)).1 = min 0.95 (1/2 + 0.02) ∧
      (fsrs_update_and_next (1/2) 10 "abit" (9/10)).2.1 = 10 * 1.05) ∧
     ((fsrs_update_and_next (1/2) 10 "didnt" (9/10)).1 = min 0.98 (1/2 + 0.05) ∧
      (fsrs_update_and_next (1/2) 10 "didnt" (9/10)).2.1 = 10 * 0.75)) :=
  ⟨⟨by norm_num, by norm_num, by norm_num⟩,
   fsrs_update_branch_eq (1/2) 10 (9/10) (by norm_num) (by norm_num) (by norm_num)⟩

/-- C2: for every valid input the interval component equals
max(1, ceil(-S_eff * log target)) with S_eff computed from the updated
stability and difficulty, and the interval is always at least 1.
Stated for an arbitrary action string, which covers the three outcomes. -/
theorem fsrs_interval_eq (D S : ℚ) (action : String) (target : ℝ)
    (hD1 : 0.05 ≤ D) (hD2 : D ≤ 0.98) (hS : 0 < S)
    (ht0 : 0 < target) (ht1 : target < 1) :
    (fsrs_update_and_next D S action target).2.2 =
      max 1 ⌈-(((fsrs_update_and_next D S action target).2.1 : ℝ) *
        (1 + 0.6 * (1 - ((fsrs_update_and_next D S action target).1 : ℝ)))) *
        Real.log target⌉ ∧
    1 ≤ (fsrs_update_and_next D S action target).2.2 := by
  exact ⟨rfl, le_max_left _ _⟩

/-- Witness for C2 at difficulty 1/2, stability 10, action "worked",
target 9/10. -/
theorem fsrs_interval_eq_witness :
    ((0.05 : ℚ) ≤ 1/2 ∧ (1/2 : ℚ) ≤ 0.98 ∧ (0 : ℚ) < 10 ∧
     (0 : ℝ) < 9/10 ∧ (9/10 : ℝ) < 1) ∧
    ((fsrs_update_and_next (1/2) 10 "worked" (9/10)).2.2 =
      max 1 ⌈-(((fsrs_update_and_next (1/2) 10 "worked" (9/10)).2.1 : ℝ) *
        (1 + 0.6 * (1 - ((fsrs_update_and_next (1/2) 10 "worked" (9/10)).1 : ℝ)))) *
        Real.log (9/10)⌉ ∧
     1 ≤ (fsrs_update_and_next (1/2) 10 "worked" (9/10)).2.2) :=
  ⟨⟨by norm_num, by norm_num, by norm_num, by norm_num, by norm_num⟩,
   fsrs_interval_eq (1/2) 10 "worked" (9/10)
     (by norm_num) (by norm_num) (by norm_num) (by norm_num) (by norm_num)⟩

/-- C5: with outcome Worked the update never increases difficulty and never
decreases stability; with outcome Missed ("didnt") it never decreases
difficulty and never increases stability. -/
theorem fsrs_monotone (D S : ℚ) (target : ℝ)
    (hD1 : 0.05 ≤ D) (hD2 : D ≤ 0.98) (hS : 0 < S) :
    ((fsrs_update_and_next D S "worked" target).1 ≤ D ∧
     S ≤ (fsrs_update_and_next D S "worked" target).2.1) ∧
    (D ≤ (fsrs_update_and_next D S "didnt" target).1 ∧
     (fsrs_update_and_next D S "didnt" target).2.1 ≤ S) := by
  have hw : (fsrs_update_and_next D S "worked" target).1 = max 0.05 (D - 0.05) ∧
      (fsrs_update_and_next D S "worked" target).2.1 = S * (1 + 0.7 * (1 - D)) := by
    constructor <;> simp [fsrs_update_and_next, fsrs_branch]
  have hd : (fsrs_update_and_next D S "didnt" target).1 = min 0.98 (D + 0.05) ∧
      (fsrs_update_and_next D S "didnt" target).2.1 = S * 0.75 := by
    constructor <;> simp [fsrs_update_and_next, fsrs_branch]
  refine ⟨⟨?_, ?_⟩, ?_, ?_⟩
  · rw [hw.1]; exact max_le (by linarith) (by linarith)
  · rw [hw.2]; nlinarith
  · rw [hd.1]; exact le_min (by linarith) (by linarith)
  · rw [hd.2]; linarith

/-- Witness for C5 at difficulty 1/2, stability 10, target 9/10. -/
theorem fsrs_monotone_witness :
    ((0.05 : ℚ) ≤ 1/2 ∧ (1/2 : ℚ) ≤ 0.98 ∧ (0 : ℚ) < 10) ∧
    (((fsrs_update_and_next (1/2) 10 "worked" (9/10)).1 ≤ 1/2 ∧
      10 ≤ (fsrs_update_and_next (1/2) 10 "worked" (9/10)).2.1) ∧
     (1/2 ≤ (fsrs_update_and_next (1/2) 10 "didnt" (9/10)).1 ∧
      (fsrs_update_and_next (1/2) 10 "didnt" (9/10)).2.1 ≤ 10)) :=
  ⟨⟨by norm_num, by norm_num, by norm_num⟩,
   fsrs_monotone (1/2) 10 (9/10) (by norm_num) (by norm_num) (by norm_num)⟩

/-- C6: for every input difficulty in [0.05, 0.98] the returned difficulty
stays in [0.05, 0.98].  Stated for an arbitrary action string, which covers
all three outcomes. -/
theorem fsrs_difficulty_clamped (D S : ℚ) (action : String) (target : ℝ)
    (hD1 : 0.05 ≤ D) (hD2 : D ≤ 0.98) :
    0.05 ≤ (fsrs_update_and_next D S action target).1 ∧
    (fsrs_update_and_next D S action target).1 ≤ 0.98 := by
  show 0.05 ≤ (fsrs_branch D S action).1 ∧ (fsrs_branch D S action).1 ≤ 0.98
  unfold fsrs_branch
  split_ifs
  · exact ⟨le_max_left _ _, max_le (by norm_num) (by linarith)⟩
  · exact ⟨le_min (by norm_num) (by linarith), (min_le_left _ _).trans (by norm_num)⟩
  · exact ⟨le_min (by norm_num) (by linarith), min_le_left _ _⟩

/-- Witness for C6 at difficulty 0.98, stability 10, action "didnt",
target 9/10. -/
theorem fsrs_difficulty_clamped_witness :
    ((0.05 : ℚ) ≤ 0.98 ∧ (0.98 : ℚ) ≤ 0.98) ∧
    (0.05 ≤ (fsrs_update_and_next 0.98 10 "didnt" (9/10)).1 ∧
     (fsrs_update_and_next 0.98 10 "didnt" (9/10)).1 ≤ 0.98) :=
  ⟨⟨by norm_num, by norm_num⟩,
   fsrs_difficulty_clamped 0.98 10 "didnt" (9/10) (by norm_num) (by norm_num)⟩

/-- C4 (failing input for the code): the source's final else branch treats
any unrecognized outcome label exactly as the Missed branch instead of
failing fast.  At action = "oops", difficulty 1/2, stability 10 the update
returns the Missed-branch values (0.55, 7.5) rather than an error. -/
theorem fsrs_unrecognized_coerced_to_missed :
    fsrs_update_and_next (1/2) 10 "oops" (9/10) =
      fsrs_update_and_next (1/2) 10 "didnt" (9/10) ∧
    (fsrs_update_and_next (1/2) 10 "oops" (9/10)).1 = 0.55 ∧
    (fsrs_update_and_next (1/2) 10 "oops" (9/10)).2.1 = 7.5 := by
  refine ⟨rfl, ?_, ?_⟩ <;> simp [fsrs_update_and_next, fsrs_branch] <;> norm_num

/-- C9: at difficulty 1/2, stability 10, outcome Missed ("didnt"),
target 9/10, the update returns difficulty 0.55, stability 7.5 and
interval 2: S_eff = 7.5 * (1 + 0.6 * 0.45) = 9.525 and
ceil(9.525 * (-log (9/10))) = 2, since 40/381 < log (10/9) <= 1/9. -/
theorem fsrs_scenario_missed :
    fsrs_update_and_next (1/2) 10 "didnt" (9/10) = (0.55, 7.5, 2) := by
  have hb : fsrs_branch (1/2) 10 "didnt" = (0.55, 7.5) := by
    rw [fsrs_branch, if_neg (by decide), if_neg (by decide)]
    norm_num [Prod.ext_iff]
  have hlog_pos : (0:ℝ) < 10/9 := by norm_num
  have hmlog : -Real.log (9/10 : ℝ) = Real.log (10/9) := by
    rw [← Real.log_inv]; norm_num
  have hup : -Real.log (9/10 : ℝ) ≤ 1/9 := by
    rw [hmlog]
    have := Real.log_le_sub_one_of_pos hlog_pos
    linarith
  have hexp : Real.exp (40/381) < 10/9 := by
    have h := Real.exp_bound' (x := 40/381) (by norm_num) (by norm_num) (n := 3) (by norm_num)
    have h2 : (∑ m ∈ Finset.range 3, ((40:ℝ)/381)^m / m.factorial) +
        ((40:ℝ)/381)^3 * (3+1)/(Nat.factorial 3 * 3) < 10/9 := by
      norm_num [Finset.sum_range_succ, Nat.factorial]
    calc Real.exp (40/381) ≤ _ := h
      _ < 10/9 := h2
  have hlo : (40:ℝ)/381 < -Real.log (9/10) := by
    rw [hmlog]
    exact (Real.lt_log_iff_exp_lt hlog_pos).mpr hexp
  have h1 : (fsrs_update_and_next (1/2) 10 "didnt" (9/10)).1 = 0.55 := by
    show (fsrs_branch (1/2) 10 "didnt").1 = 0.55
    rw [hb]
  have h2 : (fsrs_update_and_next (1/2) 10 "didnt" (9/10)).2.1 = 7.5 := by
    show (fsrs_branch (1/2) 10 "didnt").2 = 7.5
    rw [hb]
  have h3 : (fsrs_update_and_next (1/2) 10 "didnt" (9/10)).2.2 =
      max 1 ⌈-(((fsrs_branch (1/2) 10 "didnt").2 : ℝ) *
        (1 + 0.6 * (1 - ((fsrs_branch (1/2) 10 "didnt").1 : ℝ)))) * Real.log (9/10)⌉ := rfl
  rw [hb] at h3
  have hc1 : ((7.5 : ℚ) : ℝ) = 7.5 := by norm_num
  have hc2 : ((0.55 : ℚ) : ℝ) = 0.55 := by norm_num
  rw [hc1, hc2] at h3
  have hceil : ⌈-((7.5:ℝ) * (1 + 0.6 * (1 - 0.55))) * Real.log (9/10)⌉ = (2:ℤ) := by
    rw [Int.ceil_eq_iff]
    constructor
    · push_cast
      nlinarith [hlo]
    · push_cast
      nlinarith [hup]
  rw [hceil] at h3
  have h3' : (fsrs_update_and_next (1/2) 10 "didnt" (9/10)).2.2 = 2 := by
    rw [h3]; norm_num
  refine Prod.ext h1 (Prod.ext h2 h3')

/-- One row of the join of user_decks with decks for a single learner, as
read by the due-set query of cmd_today (main.py lines 226-234) and of
send_daily_for_all (lines 346-354).  Calendar dates are modelled as day
numbers. -/
structure DueRow where
  unit : String
  title : String
  quizlet_url : String
  active : Bool
  archived : Bool
  next_due : Option ℕ
  deriving DecidableEq

/-- The WHERE clause of the due-set query: ud.active = true, d.archived =
false, and (ud.next_due is null or ud.next_due <= current_date). -/
def isCandidate (asOf : ℕ) (r : DueRow) : Bool :=
  r.active && !r.archived &&
    (match r.next_due with
     | none => true
     | some d => decide (d ≤ asOf))

/-- Rank of next_due under ORDER BY ud.next_due NULLS FIRST: null sorts
before every date, dates keep their order. -/
def nullsFirstRank : Option ℕ → ℕ
  | none => 0
  | some d => d + 1

/-- The full ORDER BY key (ud.next_due nulls first, d.unit). -/
def dueKey (r : DueRow) : ℕ × String := (nullsFirstRank r.next_due, r.unit)

/-- Strict lexicographic comparison of ORDER BY keys. -/
def keyLt (a b : ℕ × String) : Prop := a.1 < b.1 ∨ (a.1 = b.1 ∧ a.2 < b.2)

instance keyLtDec (a b : ℕ × String) : Decidable (keyLt a b) := by
  unfold keyLt; infer_instance

/-- Reflexive lexicographic comparison of ORDER BY keys. -/
def keyLe (a b : ℕ × String) : Prop := a.1 < b.1 ∨ (a.1 = b.1 ∧ a.2 ≤ b.2)

instance keyLeDec (a b : ℕ × String) : Decidable (keyLe a b) := by
  unfold keyLe; infer_instance

/-- Running minimum used to evaluate ORDER BY ... LIMIT 1; keeps the
earlier row when the keys are equal. -/
def pickBetter (a b : DueRow) : DueRow :=
  if keyLt (dueKey b) (dueKey a) then b else a

/-- The due-set selector: the SELECT ... WHERE ... ORDER BY ud.next_due
NULLS FIRST, d.unit LIMIT 1 query of cmd_today and send_daily_for_all,
evaluated over the learner's joined rows. -/
def selectDue (asOf : ℕ) (rows : List DueRow) : Option DueRow :=
  match rows.filter (isCandidate asOf) with
  | [] => none
  | h :: t => some (t.foldl pickBetter h)

theorem keyLe_refl (a : ℕ × String) : keyLe a a := Or.inr ⟨rfl, le_refl _⟩

theorem keyLe_of_lt {a b : ℕ × String} (h : keyLt a b) : keyLe a b := by
  rcases h with h | ⟨h1, h2⟩
  · exact Or.inl h
  · exact Or.inr ⟨h1, le_of_lt h2⟩

theorem keyLe_of_not_lt {a b : ℕ × String} (h : ¬ keyLt b a) : keyLe a b := by
  unfold keyLt at h
  push_neg at h
  rcases lt_trichotomy a.1 b.1 with h1 | h1 | h1
  · exact Or.inl h1
  · exact Or.inr ⟨h1, le_of_not_lt (fun hc => h.2 h1.symm hc)⟩
  · exact absurd h1 (not_lt.mpr h.1)

theorem keyLe_trans {a b c : ℕ × String} (h1 : keyLe a b) (h2 : keyLe b c) :
    keyLe a c := by
  rcases h1 with h1 | ⟨e1, l1⟩ <;> rcases h2 with h2 | ⟨e2, l2⟩
  · exact Or.inl (h1.trans h2)
  · exact Or.inl (e2 ▸ h1)
  · exact Or.inl (e1 ▸ h2)
  · exact Or.inr ⟨e1.trans e2, l1.trans l2⟩

theorem pickBetter_le_left (a b : DueRow) :
    keyLe (dueKey (pickBetter a b)) (dueKey a) := by
  unfold pickBetter
  split_ifs with hlt
  · exact keyLe_of_lt hlt
  · exact keyLe_refl _

theorem pickBetter_le_right (a b : DueRow) :
    keyLe (dueKey (pickBetter a b)) (dueKey b) := by
  unfold pickBetter
  split_ifs with hlt
  · exact keyLe_refl _
  · exact keyLe_of_not_lt hlt

theorem pickBetter_mem (a b : DueRow) : pickBetter a b = a ∨ pickBetter a b = b := by
  unfold pickBetter
  split_ifs
  · exact Or.inr rfl
  · exact Or.inl rfl

theorem foldl_pickBetter_spec (t : List DueRow) : ∀ h : DueRow,
    t.foldl pickBetter h ∈ h :: t ∧
    keyLe (dueKey (t.foldl pickBetter h)) (dueKey h) ∧
    ∀ x ∈ t, keyLe (dueKey (t.foldl pickBetter h)) (dueKey x) := by
  induction t with
  | nil =>
    intro h
    refine ⟨List.mem_cons_self h [], keyLe_refl _, ?_⟩
    intro x hx
    cases hx
  | cons a t ih =>
    intro h
    obtain ⟨hmem, hle, hall⟩ := ih (pickBetter h a)
    simp only [List.foldl_cons]
    refine ⟨?_, ?_, ?_⟩
    · rcases List.mem_cons.mp hmem with he | ht
      · rcases pickBetter_mem h a with hp | hp
        · rw [he, hp]; exact List.mem_cons_self _ _
        · rw [he, hp]; exact List.mem_cons_of_mem _ (List.mem_cons_self _ _)
      · exact List.mem_cons_of_mem _ (List.mem_cons_of_mem _ ht)
    · exact keyLe_trans hle (pickBetter_le_left h a)
    · intro x hx
      rcases List.mem_cons.mp hx with he | ht
      · rw [he]; exact keyLe_trans hle (pickBetter_le_right h a)
      · exact hall x ht

/-- C3: the due-set selector returns at most one row, and any returned row
is a member of the learner's rows, satisfies the WHERE clause (active,
deck not archived, next_due unset or at most the as-of date), and has a
minimal ORDER BY key among all rows satisfying the WHERE clause, where an
unset next_due ranks below every date and ties are broken by ascending
unit label.  In particular an unset-next_due row is preferred to a row
with next_due equal to the as-of date (see the witness). -/
theorem selectDue_spec (asOf : ℕ) (rows : List DueRow) (r : DueRow)
    (h : selectDue asOf rows = some r) :
    (r ∈ rows ∧ isCandidate asOf r = true) ∧
    ∀ x ∈ rows, isCandidate asOf x = true → keyLe (dueKey r) (dueKey x) := by
  unfold selectDue at h
  cases hf : rows.filter (isCandidate asOf) with
  | nil => rw [hf] at h; cases h
  | cons hd tl =>
    rw [hf] at h
    injection h with h
    obtain ⟨hmem, hle, hall⟩ := foldl_pickBetter_spec tl hd
    rw [h] at hmem hle hall
    constructor
    · have hrf : r ∈ rows.filter (isCandidate asOf) := by rw [hf]; exact hmem
      exact ⟨List.mem_of_mem_filter hrf, List.of_mem_filter hrf⟩
    · intro x hx hc
      have hxf : x ∈ rows.filter (isCandidate asOf) := List.mem_filter.mpr ⟨hx, hc⟩
      rw [hf] at hxf
      rcases List.mem_cons.mp hxf with he | ht
      · rw [he]; exact hle
      · exact hall x ht

/-- An active, non-archived deck due today (as-of date 100). -/
def rowToday : DueRow :=
  { unit := "u-1", title := "Deck A", quizlet_url := "https://quizlet.com/a",
    active := true, archived := false, next_due := some 100 }

/-- An active, non-archived deck that was never scheduled. -/
def rowUnset : DueRow :=
  { unit := "u-2", title := "Deck B", quizlet_url := "https://quizlet.com/b",
    active := true, archived := false, next_due := none }

/-- Witness for C3: with one deck due today and one never-scheduled deck,
the selector returns the never-scheduled deck, even though its unit label
sorts after the other deck's. -/
theorem selectDue_spec_witness :
    selectDue 100 [rowToday, rowUnset] = some rowUnset ∧
    ((rowUnset ∈ [rowToday, rowUnset] ∧ isCandidate 100 rowUnset = true) ∧
     ∀ x ∈ [rowToday, rowUnset], isCandidate 100 x = true →
       keyLe (dueKey rowUnset) (dueKey x)) :=
  ⟨by decide, selectDue_spec 100 [rowToday, rowUnset] rowUnset (by decide)⟩

/-- A decimal digit character. -/
def digitChar (n : ℕ) : Char := Char.ofNat (48 + n)

/-- The zero-padded local-time rendering now_local.strftime of the pattern
H colon M used by send_daily_for_all (main.py line 342): two digits, a
colon, two digits. -/
def formatHHMM (h m : ℕ) : String :=
  String.mk [digitChar (h / 10), digitChar (h % 10), ':',
             digitChar (m / 10), digitChar (m % 10)]

/-- The Python split of a character list at every colon, as in
s.split(":") inside parse_hhmm (main.py line 41). -/
def splitColon : List Char → List (List Char)
  | [] => [[]]
  | c :: cs =>
    if c = ':' then [] :: splitColon cs
    else
      match splitColon cs with
      | [] => [[c]]
      | p :: ps => (c :: p) :: ps

/-- The numeric value of a decimal digit character, none otherwise. -/
def digitVal (c : Char) : Option ℕ :=
  if 48 ≤ c.toNat ∧ c.toNat ≤ 57 then some (c.toNat - 48) else none

/-- Accumulator for decNat. -/
def decNatAux : List Char → ℕ → Option ℕ
  | [], acc => some acc
  | c :: cs, acc =>
    match digitVal c with
    | some d => decNatAux cs (acc * 10 + d)
    | none => none

/-- Python's int() restricted to plain decimal digit strings: a nonempty
all-digit character list read as a base-10 number. -/
def decNat (l : List Char) : Option ℕ :=
  match l with
  | [] => none
  | _ => decNatAux l 0

/-- parse_hhmm (main.py lines 40-42) combined with the hour/minute range
validation of datetime.time and the exception handling of cmd_daily
(lines 134-145): an input is accepted exactly when it splits at ":" into
two decimal fields with hour below 24 and minute below 60.  On success
cmd_daily stores the raw input string unchanged as users.send_time. -/
def parse_hhmm (s : String) : Option (ℕ × ℕ) :=
  match splitColon s.data with
  | [hh, mm] =>
    match decNat hh, decNat mm with
    | some h, some m => if h < 24 ∧ m < 60 then some (h, m) else none
    | _, _ => none
  | _ => none

/-- The dispatch match of send_daily_for_all (main.py lines 341-344): a
learner is processed in a tick iff the zero-padded rendering of the local
time equals the stored send_time string. -/
def dispatchFires (h m : ℕ) (send_time : String) : Bool :=
  formatHHMM h m == send_time

theorem digitChar_inj :
    ∀ a, a < 10 → ∀ b, b < 10 → digitChar a = digitChar b → a = b := by
  decide

/-- C7: for a send_time stored in canonical zero-padded form, a dispatch
tick fires for the learner iff the local time at minute resolution equals
the configured send time; in particular a tick one minute later does not
fire again (see the witness). -/
theorem dispatch_exact_minute (h m sh sm : ℕ)
    (hh : h < 24) (hm : m < 60) (hsh : sh < 24) (hsm : sm < 60) :
    dispatchFires h m (formatHHMM sh sm) = true ↔ (h = sh ∧ m = sm) := by
  unfold dispatchFires
  rw [beq_iff_eq]
  constructor
  · intro he
    have hd := congrArg String.data he
    simp only [formatHHMM, List.cons.injEq, and_true] at hd
    obtain ⟨e1, e2, _, e3, e4⟩ := hd
    have d1 := digitChar_inj _ (by omega) _ (by omega) e1
    have d2 := digitChar_inj _ (by omega) _ (by omega) e2
    have d3 := digitChar_inj _ (by omega) _ (by omega) e3
    have d4 := digitChar_inj _ (by omega) _ (by omega) e4
    omega
  · rintro ⟨rfl, rfl⟩
    rfl

/-- Witness for C7: with send_time 08:00, the 08:00 tick fires and the
08:01 tick does not. -/
theorem dispatch_exact_minute_witness :
    dispatchFires 8 0 (formatHHMM 8 0) = true ∧
    dispatchFires 8 1 (formatHHMM 8 0) = false := by
  have h1 := (dispatch_exact_minute 8 0 8 0 (by decide) (by decide) (by decide)
    (by decide)).mpr ⟨rfl, rfl⟩
  have h2 := dispatch_exact_minute 8 1 8 0 (by decide) (by decide) (by decide)
    (by decide)
  refine ⟨h1, ?_⟩
  cases hb : dispatchFires 8 1 (formatHHMM 8 0) with
  | false => rfl
  | true => exact absurd ((h2.mp hb).2) (by decide)

/-- C10: the input 8:00 is accepted by the /daily validation (it parses as
hour 8, minute 0) but is not zero-padded, so the stored string differs
from the dispatch rendering of every valid local time and the evaluator
never fires for that learner at any tick. -/
theorem daily_unpadded_never_fires (h m : ℕ) (hh : h < 24) (hm : m < 60) :
    parse_hhmm "8:00" = some (8, 0) ∧ formatHHMM h m ≠ "8:00" ∧
    dispatchFires h m "8:00" = false := by
  have hne : formatHHMM h m ≠ "8:00" := by
    intro he
    have hlen : (formatHHMM h m).data.length = ("8:00" : String).data.length := by
      rw [he]
    have h4 : ("8:00" : String).data.length = 4 := rfl
    simp only [formatHHMM, List.length_cons, List.length_nil, h4] at hlen
    omega
  refine ⟨by decide, hne, ?_⟩
  rw [dispatchFires, beq_eq_false_iff_ne]
  exact hne

/-- Witness for C10 at local time 08:00. -/
theorem daily_unpadded_never_fires_witness :
    parse_hhmm "8:00" = some (8, 0) ∧ formatHHMM 8 0 ≠ "8:00" ∧
    dispatchFires 8 0 "8:00" = false :=
  daily_unpadded_never_fires 8 0 (by decide) (by decide)

/-- The outcome recorded for one learner inside a dispatch pass: either the
per-learner body completed, or its exception was caught and logged at the
per-learner boundary (main.py lines 362-363). -/
inductive TickOutcome
  | done
  | errorLogged (msg : String)
  deriving DecidableEq

/-- The try/except wrapped around the per-learner body of
send_daily_for_all: a raised error is converted into a logged outcome. -/
def runCaught {α : Type} (body : α → Except String Unit) (u : α) : TickOutcome :=
  match body u with
  | Except.ok _ => TickOutcome.done
  | Except.error e => TickOutcome.errorLogged e

/-- send_daily_for_all (main.py lines 337-363): iterate over the learners
in order; the body of each iteration (time-zone check, due-set query,
message delivery, abstracted as the fallible body argument) runs inside
try/except, which logs and continues.  The Except-valued recursion models
the sequencing in which an exception escaping one iteration would abort
the remaining learners. -/
def send_daily_for_all {α : Type} (body : α → Except String Unit) :
    List α → Except String (List TickOutcome)
  | [] => Except.ok []
  | u :: us =>
    let r := runCaught body u
    match send_daily_for_all body us with
    | Except.ok rs => Except.ok (r :: rs)
    | Except.error e => Except.error e

/-- scheduler_loop (main.py lines 366-372) run for a finite number of
ticks: each tick runs one dispatch pass inside its own try/except, so even
a failing pass is logged and the loop continues with the next tick. -/
def scheduler_loop {α : Type} (body : α → Except String Unit) (users : List α) :
    ℕ → List (List TickOutcome)
  | 0 => []
  | n + 1 =>
    let tick :=
      match send_daily_for_all body users with
      | Except.ok rs => rs
      | Except.error _ => []
    tick :: scheduler_loop body users n

/-- C8: for every per-learner body, including failing ones, a dispatch pass
completes without propagating an error and records one outcome per
learner, each learner's outcome depending only on that learner's own
evaluation; and the recurring scheduler executes every tick regardless. -/
theorem dispatch_isolates_failures {α : Type} (body : α → Except String Unit)
    (users : List α) (n : ℕ) :
    send_daily_for_all body users = Except.ok (users.map (runCaught body)) ∧
    (scheduler_loop body users n).length = n := by
  constructor
  · induction users with
    | nil => rfl
    | cons u us ih =>
      simp only [send_daily_for_all, ih, List.map_cons]
  · induction n with
    | zero => rfl
    | succ k ih =>
      simp only [scheduler_loop, List.length_cons, ih]
